import Mathlib

/-!
Verification development for the periodic-snapshotter subsystem of a ZFS
replication daemon (zrepl).  The Go source is shallowly embedded: strings
are lists of characters, Go's `strings.Split` / `strings.Join` are embedded
as structural functions, times are integers (nanoseconds) or broken-down
UTC records, external effects (zfs calls, hook subprocesses, timers,
context cancellation) appear as oracle inputs, and each state function of
the snapshotter becomes a pure step function over an explicit record.
-/

namespace Zrepl

/-- Go strings are modelled as lists of characters. -/
abbrev GoStr := List Char

/-- Embeds Go `strings.Split(s, sep)` for a one-character separator:
splits around every occurrence of the separator, keeping empty pieces;
the empty string yields one empty piece. -/
def splitChar (sep : Char) : GoStr → List GoStr
  | [] => [[]]
  | c :: rest =>
    if c = sep then [] :: splitChar sep rest
    else
      match splitChar sep rest with
      | [] => [[c]]
      | g :: gs => (c :: g) :: gs

/-- Embeds Go `strings.Join(parts, sep)` for a one-character separator. -/
def joinChar (sep : Char) : List GoStr → GoStr
  | [] => []
  | [g] => g
  | g :: g2 :: gs => g ++ sep :: joinChar sep (g2 :: gs)

/-- Embeds Go `strings.ContainsAny(s, chars)`. -/
def containsAny (s chars : GoStr) : Bool :=
  s.any fun c => chars.contains c

/-- A ZFS dataset path, `zfs.DatasetPath`: its list of name components. -/
abbrev DatasetPath := List GoStr

/-- Embeds `DatasetPath.ToString`: components joined by a slash. -/
def dpToString (p : DatasetPath) : GoStr := joinChar '/' p

/-- The forbidden characters of `NewDatasetPath` (Go constant `FORBIDDEN`). -/
def forbiddenChars : GoStr := ['@', '#', '|', '\t', '<', '>', '*']

/-- Embeds `zfs.NewDatasetPath`: the empty string is the empty path; a
string with a forbidden character is rejected; the string is split on
slashes and rejected when the last component is empty. -/
def NewDatasetPath (s : GoStr) : Except GoStr DatasetPath :=
  if s = [] then .ok []
  else if containsAny s forbiddenChars then
    .error ("contains forbidden characters".toList)
  else
    let comps := splitChar '/' s
    if comps.getLast? = some [] then .error ("must not end with a slash".toList)
    else .ok comps

/-- Embeds `DatasetPath.HasPrefix`: the candidate may not be longer than
the path and must agree with it index by index over its own length. -/
def dpHasPfx (p q : DatasetPath) : Bool :=
  if q.length > p.length then false
  else (List.range q.length).all fun i => q.getD i [] == p.getD i []

/-- Embeds `DatasetPath.TrimPrefix`: when `dpHasPfx` holds, rebuild the
component list from the old components shifted by the candidate's length;
otherwise the path is returned unchanged. -/
def dpTrimPfx (p q : DatasetPath) : DatasetPath :=
  if !dpHasPfx p q then p
  else (List.range (p.length - q.length)).map fun i => p.getD (q.length + i) []

/-- Broken-down UTC clock reading of a Go `time.Time` value as consumed by
`Format`: calendar fields plus the millisecond component. -/
structure GoTime where
  year : Nat
  month : Nat
  day : Nat
  hour : Nat
  minute : Nat
  second : Nat
  millis : Nat
  deriving DecidableEq

/-- Decimal digit string of a natural number. -/
def decDigits (n : Nat) : GoStr := (Nat.repr n).toList

/-- Zero-pad a number to the given width (Go time formatting pads with
zeros and never truncates). -/
def pad (w : Nat) (n : Nat) : GoStr :=
  List.replicate (w - (decDigits n).length) '0' ++ decDigits n

/-- Embeds Go `time.Format` reference-chunk scanning, restricted to the
chunks and literals that can occur in the snapper layout
"20060102_150405_000": "2006" is the four-digit year and "01" "02" "15"
"04" "05" are zero-padded month, day, hour, minute, second.  A fractional
second chunk must start with a decimal point (".000"); a zero digit that
is not preceded by a point and not followed by a digit between 1 and 6 is
a literal — this is why the layout's trailing "000" is emitted verbatim
and the millisecond component never appears. -/
def goTimeFormat (t : GoTime) : List Char → GoStr
  | '2' :: '0' :: '0' :: '6' :: rest => pad 4 t.year ++ goTimeFormat t rest
  | '0' :: '1' :: rest => pad 2 t.month ++ goTimeFormat t rest
  | '0' :: '2' :: rest => pad 2 t.day ++ goTimeFormat t rest
  | '1' :: '5' :: rest => pad 2 t.hour ++ goTimeFormat t rest
  | '0' :: '4' :: rest => pad 2 t.minute ++ goTimeFormat t rest
  | '0' :: '5' :: rest => pad 2 t.second ++ goTimeFormat t rest
  | '.' :: '0' :: '0' :: '0' :: rest => '.' :: (pad 3 t.millis ++ goTimeFormat t rest)
  | c :: rest => c :: goTimeFormat t rest
  | [] => []

/-- The layout string passed to Format in `snapshot()`: "20060102_150405_000". -/
def snapLayout : GoStr :=
  ['2', '0', '0', '6', '0', '1', '0', '2', '_', '1', '5', '0', '4', '0', '5', '_', '0', '0', '0']

/-- The snapshot name built in `snapshot()`: configured prefix followed by
the formatted UTC clock reading. -/
def snapName (pfx : GoStr) (t : GoTime) : GoStr := pfx ++ goTimeFormat t snapLayout

/-- Modelled from the spec: the claimed name shape — prefix, YYYYMMDD,
underscore, HHMMSS, underscore, the millisecond component zero-padded to
three digits. -/
def specSnapNameMillis (pfx : GoStr) (t : GoTime) : GoStr :=
  pfx ++ (pad 4 t.year ++ pad 2 t.month ++ pad 2 t.day) ++
    ('_' :: (pad 2 t.hour ++ pad 2 t.minute ++ pad 2 t.second)) ++
    ('_' :: pad 3 t.millis)

/-- `zfs.VersionType` (the Go field `Type` is called `vtype` here). -/
inductive VersionType
  | snapshot
  | bookmark
  deriving DecidableEq

/-- `zfs.FilesystemVersion`; creation time is an integer clock reading. -/
structure FilesystemVersion where
  vtype : VersionType
  name : GoStr
  guid : Nat
  createTXG : Nat
  creation : Int
  deriving DecidableEq

/-- `snapper.SnapState`. -/
inductive SnapState
  | SnapPending
  | SnapStarted
  | SnapDone
  | SnapError
  deriving DecidableEq

/-- `snapper.snapProgress`; errors are optional messages, times are
integers with 0 standing for Go's zero time. -/
structure snapProgress where
  state : SnapState
  name : GoStr
  startAt : Int
  doneAt : Int
  err : Option GoStr
  deriving DecidableEq

/-- `config.HookSettings` as used by the snapper (fields Pre, Post,
Timeout, Keep; an empty command string means the hook is not configured). -/
structure HookSettings where
  pre : GoStr
  post : GoStr
  timeout : Int
  keep : Bool
  deriving DecidableEq

/-- `snapper.args` (the context, logger and channel are modelled by the
step oracle; the Go field `prefix` is called `pfx` here). -/
structure Args where
  pfx : GoStr
  interval : Int
  hooks : HookSettings
  hookDir : GoStr
  deriving DecidableEq

/-- `snapper.State`. -/
inductive State
  | SyncUp
  | SyncUpErrWait
  | Planning
  | Snapshotting
  | Waiting
  | ErrorWait
  | Stopped
  deriving DecidableEq

/-- The mutex-guarded mutable fields of `snapper.Snapper`; the plan map
(keyed by dataset-path pointers) is an association list. -/
structure SnapperCore where
  state : State
  lastInvocation : Int
  plan : List (DatasetPath × snapProgress)
  sleepUntil : Int
  err : Option GoStr
  deriving DecidableEq

/-- `snapper.Snapper` as constructed by `PeriodicFromConfig`. -/
structure Snapper where
  args : Args
  core : SnapperCore
  deriving DecidableEq

/-- The periodic-snapshotting configuration block consumed by
`PeriodicFromConfig` (the Go field `Prefix` is called `pfx` here). -/
structure PeriodicConfig where
  pfx : GoStr
  interval : Int
  hooks : HookSettings
  deriving DecidableEq

/-- Embeds `snapper.PeriodicFromConfig`: empty prefix and non-positive
interval are rejected at construction; otherwise the Snapper starts in
state SyncUp with zero values in the remaining fields. -/
def periodicFromConfig (configDir : GoStr) (c : PeriodicConfig) : Except GoStr Snapper :=
  if c.pfx = [] then .error ("prefix must not be empty".toList)
  else if c.interval ≤ 0 then .error ("interval must be positive".toList)
  else .ok ⟨⟨c.pfx, c.interval, c.hooks, configDir⟩,
            ⟨State.SyncUp, 0, [], 0, none⟩⟩

/-- Oracle for the external effects of one iteration of the snapshot loop
over one filesystem: the clock reads (the name is formatted from one
`time.Now` reading and `startAt`/`doneAt` from later ones), and the error
results the pre hook, `zfs.ZFSSnapshot` and the post hook would return if
invoked (`none` is Go's nil error). -/
structure SnapOracle where
  nameTime : GoTime
  startTs : Int
  doneTs : Int
  preRes : Option GoStr
  snapRes : Option GoStr
  postRes : Option GoStr

/-- Observable outcome of the loop body of `snapper.snapshot()` for one
filesystem: the loop-local progress record, the had-err accumulator after
the iteration, flags recording which external calls were made, and the
snapshot name used. -/
structure FSOutcome where
  progress : snapProgress
  hadErr : Bool
  preCalled : Bool
  snapCalled : Bool
  postCalled : Bool
  snapname : GoStr

/-- Embeds the loop body of `snapper.snapshot()` for one filesystem.  In
the Go source `progress` is the value loop variable of
`for fs, progress := range plan`, hence a copy of the map value; every
`u(...)` closure mutates only that copy.  `hadErr0` is the value of the
`hadErr` accumulator when the iteration starts; the Go code guards the
post hook with the accumulated `!hadErr`, not with this filesystem's own
snapshot error alone.  In the skip branch (pre-hook failed and keep is
false) the shared tail update runs with `err` still nil, so the copy is
marked SnapDone with a zero doneAt. -/
def processFS (a : Args) (o : SnapOracle) (hadErr0 : Bool) (pr0 : snapProgress) : FSOutcome :=
  let sn := snapName a.pfx o.nameTime
  let pr1 : snapProgress :=
    { pr0 with name := sn, startAt := o.startTs, state := SnapState.SnapStarted }
  let preCalled : Bool := if a.hooks.pre = [] then false else true
  let preHookErr : Option GoStr := if a.hooks.pre = [] then none else o.preRes
  if preHookErr = none ∨ a.hooks.keep then
    let err := o.snapRes
    let hadErr1 : Bool := if err ≠ none then true else hadErr0
    let postCalled : Bool :=
      if hadErr1 then false else if a.hooks.post = [] then false else true
    let pr2 : snapProgress :=
      { pr1 with doneAt := o.doneTs,
                 state := if err ≠ none then SnapState.SnapError else SnapState.SnapDone,
                 err := err }
    ⟨pr2, hadErr1, preCalled, true, postCalled, sn⟩
  else
    let pr2 : snapProgress :=
      { pr1 with doneAt := 0, state := SnapState.SnapDone, err := none }
    ⟨pr2, true, preCalled, false, false, sn⟩

/-- Oracle for one invocation of a state function: the clock, the result
`zfs.ZFSListMapping` would return, the per-dataset results
`zfs.ZFSListFilesystemVersions` would return (already restricted to
prefixed snapshots by the version filter built in `findSyncPoint`),
whether the context is cancelled when the state function reaches its
select, and the per-filesystem snapshot oracles. -/
structure StepEnv where
  now : Int
  listRes : Except GoStr (List DatasetPath)
  versionsOf : DatasetPath → Except GoStr (List FilesystemVersion)
  ctxDone : Bool
  oracleOf : DatasetPath → SnapOracle

/-- Stable insertion used to model Go `sort.SliceStable` with comparison
`CreateTXG i < CreateTXG j`: a new element moves past every element whose
key is ≤ its own, so elements with equal keys keep their original order. -/
def insertByTXG (v : FilesystemVersion) :
    List FilesystemVersion → List FilesystemVersion
  | [] => [v]
  | w :: ws =>
    if w.createTXG ≤ v.createTXG then w :: insertByTXG v ws else v :: w :: ws

/-- The ascending stable sort by CreateTXG performed in `findSyncPoint`
(stable sorting by a fixed key has a unique result, so this insertion
sort computes exactly what `sort.SliceStable` produces). -/
def sortByCreateTXG (l : List FilesystemVersion) : List FilesystemVersion :=
  l.foldl (fun acc v => insertByTXG v acc) []

/-- Embeds one iteration of the `findSyncPoint` loop: the proposal this
filesystem contributes, or none when listing versions failed, no prefixed
snapshot exists, or the latest snapshot is from the future. -/
def proposeFor (now interval : Int)
    (e : DatasetPath × Except GoStr (List FilesystemVersion)) : Option Int :=
  match e.2 with
  | .error _ => none
  | .ok fsvs =>
    if fsvs.length ≤ 0 then none
    else
      match (sortByCreateTXG fsvs).getLast? with
      | none => none
      | some latest =>
        let since := now - latest.creation
        if since < 0 then none
        else if since < interval then some (latest.creation + interval)
        else some now

/-- Embeds `snapper.findSyncPoint` (its error result is always nil in the
source and is omitted here): collect the proposals, fall back to a single
`now` proposal when no filesystem contributed one, and return the
earliest (the Go code sorts ascending and takes index 0). -/
def findSyncPoint (now : Int)
    (fss : List (DatasetPath × Except GoStr (List FilesystemVersion)))
    (interval : Int) : Int :=
  if fss.length = 0 then now
  else
    let snaptimes := fss.filterMap (proposeFor now interval)
    let snaptimes := if snaptimes.length = 0 then [now] else snaptimes
    match snaptimes with
    | [] => now
    | t :: ts => ts.foldl min t

/-- Embeds `snapper.onErr`: record the error; SyncUp moves to
SyncUpErrWait, Planning and Snapshotting move to ErrorWait (fallthrough
in the Go switch), every other state is left unchanged. -/
def onErr (msg : GoStr) (s : SnapperCore) : SnapperCore :=
  { s with err := some msg,
           state := match s.state with
                    | State.SyncUp => State.SyncUpErrWait
                    | State.Planning => State.ErrorWait
                    | State.Snapshotting => State.ErrorWait
                    | st => st }

/-- Embeds `snapper.onMainCtxDone`: record the context error, Stopped. -/
def onMainCtxDone (s : SnapperCore) : SnapperCore :=
  { s with err := some ("context canceled".toList), state := State.Stopped }

/-- Embeds `snapper.syncUp`: stamp lastInvocation, list the filesystems,
compute and store the sync point, sleep; timer expiry moves to Planning,
context cancellation to Stopped.  The Go error check after findSyncPoint
is dead code because findSyncPoint always returns a nil error. -/
def syncUpStep (a : Args) (e : StepEnv) (s0 : SnapperCore) : SnapperCore :=
  let s := { s0 with lastInvocation := e.now }
  match e.listRes with
  | .error msg => onErr msg s
  | .ok fss =>
    let sp := findSyncPoint e.now (fss.map fun d => (d, e.versionsOf d)) a.interval
    let s := { s with sleepUntil := sp }
    if e.ctxDone then onMainCtxDone s else { s with state := State.Planning }

/-- Embeds `snapper.plan`: stamp lastInvocation, list the filesystems and
map every discovered filesystem to a Pending progress record. -/
def planStep (a : Args) (e : StepEnv) (s0 : SnapperCore) : SnapperCore :=
  let s := { s0 with lastInvocation := e.now }
  match e.listRes with
  | .error msg => onErr msg s
  | .ok fss =>
    { s with state := State.Snapshotting,
             plan := fss.map fun fs => (fs, ⟨SnapState.SnapPending, [], 0, 0, none⟩) }

/-- Embeds `snapper.snapshot`: run the per-filesystem loop body over the
plan threading the had-err accumulator, then enter ErrorWait or Waiting.
The loop-local progress copies are discarded exactly as the Go code
discards them — `snapper.plan` is never written back — so the plan field
is unchanged.  The non-blocking channel send has no state effect. -/
def snapshotStep (a : Args) (e : StepEnv) (s : SnapperCore) : SnapperCore :=
  let hadErr := s.plan.foldl
    (fun acc kv => (processFS a (e.oracleOf kv.1) acc kv.2).hadErr) false
  if hadErr then
    { s with state := State.ErrorWait,
             err := some ("one or more snapshots could not be created".toList) }
  else { s with state := State.Waiting }

/-- Embeds `snapper.wait` (shared by SyncUpErrWait, Waiting, ErrorWait):
sleepUntil = lastInvocation + interval; timer expiry moves to Planning,
context cancellation to Stopped. -/
def waitStep (a : Args) (e : StepEnv) (s0 : SnapperCore) : SnapperCore :=
  let s := { s0 with sleepUntil := s0.lastInvocation + a.interval }
  if e.ctxDone then onMainCtxDone s else { s with state := State.Planning }

/-- One turn of the Run loop: dispatch per `State.sf` and apply the state
function; Stopped has a nil state function, the loop exits, modelled as
the identity. -/
def snapperStep (a : Args) (e : StepEnv) (s : SnapperCore) : SnapperCore :=
  match s.state with
  | State.SyncUp => syncUpStep a e s
  | State.SyncUpErrWait => waitStep a e s
  | State.Planning => planStep a e s
  | State.Snapshotting => snapshotStep a e s
  | State.Waiting => waitStep a e s
  | State.ErrorWait => waitStep a e s
  | State.Stopped => s

/-- The transition table of spec section 4.5, with Stopped as a
self-looping terminal state. -/
def allowedTrans : State → State → Bool
  | State.SyncUp, State.Planning => true
  | State.SyncUp, State.SyncUpErrWait => true
  | State.SyncUp, State.Stopped => true
  | State.SyncUpErrWait, State.Planning => true
  | State.SyncUpErrWait, State.Stopped => true
  | State.Planning, State.Snapshotting => true
  | State.Planning, State.ErrorWait => true
  | State.Snapshotting, State.Waiting => true
  | State.Snapshotting, State.ErrorWait => true
  | State.Waiting, State.Planning => true
  | State.Waiting, State.Stopped => true
  | State.ErrorWait, State.Planning => true
  | State.ErrorWait, State.Stopped => true
  | State.Stopped, State.Stopped => true
  | _, _ => false

/-- Embeds Go `filepath.IsAbs` on Unix: the path begins with a slash. -/
def filepathIsAbs (p : GoStr) : Bool :=
  match p with
  | [] => false
  | c :: _ => c == '/'

/-- The element loop of Go `path/filepath.Clean` (Unix): empty and dot
elements are dropped, a dotdot element pops a non-dotdot stack top, is
dropped at the root, and is kept on a relative path; `acc` holds the
processed elements in reverse. -/
def cleanLoop (rooted : Bool) (acc : List GoStr) : List GoStr → List GoStr
  | [] => acc
  | e :: es =>
    if e = [] ∨ e = ['.'] then cleanLoop rooted acc es
    else if e = ['.', '.'] then
      match acc with
      | [] => if rooted then cleanLoop rooted [] es else cleanLoop rooted [['.', '.']] es
      | top :: restAcc =>
        if top = ['.', '.'] then cleanLoop rooted (e :: acc) es
        else cleanLoop rooted restAcc es
    else cleanLoop rooted (e :: acc) es

/-- Embeds Go `path/filepath.Clean` (Unix). -/
def filepathClean (p : GoStr) : GoStr :=
  match p with
  | [] => ['.']
  | c :: _ =>
    let rooted : Bool := c == '/'
    let comps := (cleanLoop rooted [] (splitChar '/' p)).reverse
    let out := joinChar '/' comps
    if rooted then '/' :: out
    else if out = [] then ['.'] else out

/-- Embeds Go `filepath.Join(a, b)`: skip leading empty elements, join
the rest with a slash, Clean the result. -/
def filepathJoin (a b : GoStr) : GoStr :=
  if a ≠ [] then filepathClean (a ++ '/' :: b)
  else if b ≠ [] then filepathClean b
  else []

/-- Embeds the command-path resolution of `hooks.RunHookCommand`: an
absolute command is used unchanged, a relative one is joined under the
command directory. -/
def resolveHookCommand (commandDir command : GoStr) : GoStr :=
  if filepathIsAbs command then command else filepathJoin commandDir command

/-- Go `exec.Command` semantics: a program name containing no path
separator is resolved through LookPath (a `$PATH` search); a name with a
slash is executed as given. -/
def execUsesLookPath (p : GoStr) : Bool := !(p.contains '/')

/-- Concrete per-filesystem oracle with every external call succeeding. -/
def oracleAllOk : SnapOracle := ⟨⟨2024, 1, 2, 3, 4, 5, 0⟩, 10, 11, none, none, none⟩

/-- Concrete snapper arguments: prefix "z", hour interval, no hooks. -/
def argsNoHooks : Args := ⟨['z'], 3600, ⟨[], [], 60, false⟩, ['/', 'd']⟩

/-- Concrete step oracle: one dataset "t", all calls succeeding, context
not cancelled. -/
def envAllOk : StepEnv := ⟨0, .ok [[['t']]], fun _ => .ok [], false, fun _ => oracleAllOk⟩

/-- Concrete snapper state as it enters Snapshotting: the plan produced by
Planning, mapping the discovered filesystem "t" to a Pending record. -/
def coreSnapshotting : SnapperCore :=
  ⟨State.Snapshotting, 0, [([['t']], ⟨SnapState.SnapPending, [], 0, 0, none⟩)], 0, none⟩

theorem splitChar_ne_nil (sep : Char) (l : GoStr) : splitChar sep l ≠ [] := by
  cases l with
  | nil => simp [splitChar]
  | cons c rest =>
    simp only [splitChar]
    split
    · simp
    · cases h : splitChar sep rest <;> simp

theorem joinChar_splitChar (sep : Char) (l : GoStr) :
    joinChar sep (splitChar sep l) = l := by
  induction l with
  | nil => rfl
  | cons c rest ih =>
    by_cases h : c = sep
    · subst h
      simp only [splitChar, if_pos rfl]
      cases hs : splitChar c rest with
      | nil => exact absurd hs (splitChar_ne_nil c rest)
      | cons g gs =>
        rw [hs] at ih
        simpa [joinChar] using ih
    · simp only [splitChar, if_neg h]
      cases hs : splitChar sep rest with
      | nil => exact absurd hs (splitChar_ne_nil sep rest)
      | cons g gs =>
        rw [hs] at ih
        cases gs with
        | nil =>
          simp only [joinChar] at ih ⊢
          simp [ih]
        | cons g2 gs2 =>
          simp only [joinChar] at ih ⊢
          simp [ih]

theorem splitChar_getLast_empty (sep : Char) (l : GoStr)
    (h : (splitChar sep l).getLast? = some []) :
    l = [] ∨ l.getLast? = some sep := by
  induction l with
  | nil => exact Or.inl rfl
  | cons c rest ih =>
    cases hs : splitChar sep rest with
    | nil => exact absurd hs (splitChar_ne_nil sep rest)
    | cons g gs =>
      by_cases hc : c = sep
      · subst hc
        rw [show splitChar c (c :: rest) = [] :: g :: gs by simp [splitChar, hs]] at h
        rw [List.getLast?_cons_cons] at h
        rw [hs] at ih
        rcases ih h with hrest | hrest
        · subst hrest
          exact Or.inr rfl
        · refine Or.inr ?_
          cases rest with
          | nil => simp at hrest
          | cons r rs => rw [List.getLast?_cons_cons]; exact hrest
      · rw [show splitChar sep (c :: rest) = (c :: g) :: gs by
             simp [splitChar, hc, hs]] at h
        rw [hs] at ih
        cases gs with
        | nil => simp at h
        | cons g2 gs2 =>
          rw [List.getLast?_cons_cons] at h
          have h2 : (g :: g2 :: gs2).getLast? = some [] := by
            rw [List.getLast?_cons_cons]; exact h
          rcases ih h2 with hrest | hrest
          · subst hrest
            simp [splitChar] at hs
          · refine Or.inr ?_
            cases rest with
            | nil => simp at hrest
            | cons r rs => rw [List.getLast?_cons_cons]; exact hrest

theorem dpHasPfx_iff (p q : DatasetPath) : dpHasPfx p q = true ↔ ∃ t, q ++ t = p := by
  constructor
  · intro h
    simp only [dpHasPfx] at h
    split at h
    · exact absurd h (by simp)
    · rename_i hlen
      have hle : q.length ≤ p.length := by omega
      rw [List.all_eq_true] at h
      refine ⟨p.drop q.length, ?_⟩
      have hq : q = p.take q.length := by
        apply List.ext_getElem
        · simp [Nat.min_eq_left hle]
        · intro n h1 h2
          have hn : n < q.length := h1
          have := h n (by simpa using hn)
          rw [beq_iff_eq] at this
          rw [List.getD_eq_getElem q [] hn] at this
          rw [List.getD_eq_getElem p [] (by omega)] at this
          rw [List.getElem_take]
          exact this
      have hsplit := List.take_append_drop q.length p
      rw [← hq] at hsplit
      exact hsplit
  · rintro ⟨t, rfl⟩
    simp only [dpHasPfx]
    split
    · rename_i hlen
      exact absurd hlen (by simp only [List.length_append, gt_iff_lt]; omega)
    · rw [List.all_eq_true]
      intro i hi
      simp only [List.mem_range] at hi
      rw [beq_iff_eq]
      rw [List.getD_eq_getElem q [] hi]
      rw [List.getD_eq_getElem (q ++ t) [] (by simp; omega)]
      rw [List.getElem_append_left hi]

/-- C10: trim-prefix removes exactly the candidate's length many leading
components when the candidate is a component-wise prefix, and leaves the
path unchanged otherwise. -/
theorem c10_trimpfx_drop_or_id (p q : DatasetPath) :
    ((∃ t, q ++ t = p) → dpTrimPfx p q = p.drop q.length) ∧
    ((¬ ∃ t, q ++ t = p) → dpTrimPfx p q = p) := by
  constructor
  · intro hpre
    have hh : dpHasPfx p q = true := (dpHasPfx_iff p q).mpr hpre
    obtain ⟨t, rfl⟩ := hpre
    simp only [dpTrimPfx, hh, Bool.not_true, Bool.false_eq_true, if_false]
    apply List.ext_getElem
    · simp
    · intro n h1 h2
      have hn : n < (q ++ t).length - q.length := by simpa using h1
      rw [List.getElem_map]
      rw [List.getElem_range]
      rw [List.getElem_drop]
      exact List.getD_eq_getElem (q ++ t) []
        (by simp only [List.length_append] at hn ⊢; omega)
  · intro hpre
    have hh : dpHasPfx p q = false := by
      rcases hb : dpHasPfx p q with _ | _
      · rfl
      · exact absurd ((dpHasPfx_iff p q).mp hb) hpre
    simp [dpTrimPfx, hh]

theorem c10_trimpfx_drop_or_id_witness :
    ((∃ t, [['a'], ['b']] ++ t = [['a'], ['b'], ['c']]) ∧
      dpTrimPfx [['a'], ['b'], ['c']] [['a'], ['b']] =
        ([['a'], ['b'], ['c']] : DatasetPath).drop 2) ∧
    ((¬ ∃ t, [['x']] ++ t = [['a'], ['b'], ['c']]) ∧
      dpTrimPfx [['a'], ['b'], ['c']] [['x']] = [['a'], ['b'], ['c']]) :=
  ⟨⟨⟨[['c']], rfl⟩,
    (c10_trimpfx_drop_or_id [['a'], ['b'], ['c']] [['a'], ['b']]).1 ⟨[['c']], rfl⟩⟩,
   ⟨(by rintro ⟨t, ht⟩; cases ht),
    (c10_trimpfx_drop_or_id [['a'], ['b'], ['c']] [['x']]).2
      (by rintro ⟨t, ht⟩; cases ht)⟩⟩

/-- C7: from-string rejects every string containing a forbidden
character; on every string free of forbidden characters and not ending in
a slash it succeeds, and to-string undoes it. -/
theorem c7_path_validation_roundtrip :
    (∀ s : GoStr, containsAny s forbiddenChars = true →
      ∃ msg, NewDatasetPath s = .error msg) ∧
    (∀ s : GoStr, containsAny s forbiddenChars = false → s.getLast? ≠ some '/' →
      ∃ p, NewDatasetPath s = .ok p ∧ dpToString p = s) := by
  constructor
  · intro s hs
    have hne : s ≠ [] := by
      intro h; subst h; simp [containsAny] at hs
    exact ⟨("contains forbidden characters".toList), by simp [NewDatasetPath, hne, hs]⟩
  · intro s hfree hslash
    by_cases hne : s = []
    · subst hne
      exact ⟨[], by simp [NewDatasetPath], rfl⟩
    · refine ⟨splitChar '/' s, ?_, joinChar_splitChar '/' s⟩
      have hlast : ¬ (splitChar '/' s).getLast? = some [] := by
        intro h
        rcases splitChar_getLast_empty '/' s h with h1 | h1
        · exact hne h1
        · exact hslash h1
      simp [NewDatasetPath, hne, hfree, hlast]

theorem c7_path_validation_roundtrip_witness :
    (containsAny ['t', '@', 'x'] forbiddenChars = true ∧
      ∃ msg, NewDatasetPath ['t', '@', 'x'] = .error msg) ∧
    (containsAny ['t', '/', 'a'] forbiddenChars = false ∧
      (['t', '/', 'a'] : GoStr).getLast? ≠ some '/' ∧
      ∃ p, NewDatasetPath ['t', '/', 'a'] = .ok p ∧ dpToString p = ['t', '/', 'a']) :=
  ⟨⟨by decide, c7_path_validation_roundtrip.1 ['t', '@', 'x'] (by decide)⟩,
   ⟨by decide, by decide,
    c7_path_validation_roundtrip.2 ['t', '/', 'a'] (by decide) (by decide)⟩⟩

/-- C8 counterexample: the string "a//b" is free of forbidden characters
and does not end in a slash, so from-string accepts it — but the middle
component of the resulting path is the empty string. -/
theorem c8_empty_component_counterexample :
    NewDatasetPath ['a', '/', '/', 'b'] = .ok [['a'], [], ['b']] ∧
      ([] : GoStr) ∈ [['a'], ([] : GoStr), ['b']] := by
  constructor
  · rfl
  · simp

/-- C8 amended: every path accepted by from-string has a non-empty last
component (the empty path included); interior components may be empty. -/
theorem c8_last_component_nonempty (s : GoStr) (p : DatasetPath)
    (h : NewDatasetPath s = .ok p) : p.getLast? ≠ some [] := by
  simp only [NewDatasetPath] at h
  split at h
  · injection h with h2
    subst h2
    simp
  · split at h
    · exact Except.noConfusion h
    · split at h
      · exact Except.noConfusion h
      · rename_i hguard
        injection h with h2
        subst h2
        exact hguard

theorem c8_last_component_nonempty_witness :
    NewDatasetPath ['a', '/', 'b'] = .ok [['a'], ['b']] ∧
      ([['a'], ['b']] : DatasetPath).getLast? ≠ some [] :=
  ⟨rfl, c8_last_component_nonempty ['a', '/', 'b'] [['a'], ['b']] rfl⟩

theorem processFS_snapname (a : Args) (o : SnapOracle) (b : Bool) (pr : snapProgress) :
    (processFS a o b pr).snapname = snapName a.pfx o.nameTime := by
  simp only [processFS]
  split <;> split <;> rfl

/-- C2 amended: the name handed to ZFSSnapshot is the prefix, the UTC
date, an underscore, the UTC time of day, and the literal suffix "_000";
the millisecond component of the clock reading never appears, because the
layout's "000" is not preceded by a decimal point and is therefore a
literal for Go's formatter. -/
theorem c2_snapname_literal_suffix (a : Args) (o : SnapOracle) (b : Bool)
    (pr : snapProgress) :
    (processFS a o b pr).snapname =
      a.pfx ++ (pad 4 o.nameTime.year ++ (pad 2 o.nameTime.month ++ (pad 2 o.nameTime.day ++
        ('_' :: (pad 2 o.nameTime.hour ++ (pad 2 o.nameTime.minute ++
          (pad 2 o.nameTime.second ++ ['_', '0', '0', '0']))))))) := by
  rw [processFS_snapname]
  rfl

/-- C2 counterexample: at a clock reading with millisecond component 123
the produced name ends in the literal "_000", so it differs from the
spec's claimed shape, which would end in "_123". -/
theorem c2_name_millis_counterexample :
    (processFS ⟨['z'], 3600, ⟨[], [], 60, false⟩, ['/', 'd']⟩
        ⟨⟨2024, 1, 2, 3, 4, 5, 123⟩, 10, 11, none, none, none⟩ false
        ⟨SnapState.SnapPending, [], 0, 0, none⟩).snapname ≠
      specSnapNameMillis ['z'] ⟨2024, 1, 2, 3, 4, 5, 123⟩ := by
  decide

theorem processFS_skip (a : Args) (o : SnapOracle) (b : Bool) (pr : snapProgress)
    (hpre : a.hooks.pre ≠ []) (hfail : o.preRes ≠ none) (hkeep : a.hooks.keep = false) :
    processFS a o b pr =
      ⟨⟨SnapState.SnapDone, snapName a.pfx o.nameTime, o.startTs, 0, none⟩,
       true, true, false, false, snapName a.pfx o.nameTime⟩ := by
  obtain ⟨m, hm⟩ : ∃ m, o.preRes = some m := Option.ne_none_iff_exists'.mp hfail
  simp [processFS, hpre, hm, hkeep]

theorem processFS_hadErr_true (a : Args) (o : SnapOracle) (pr : snapProgress) :
    (processFS a o true pr).hadErr = true := by
  simp only [processFS, ite_self]
  split <;> split <;> rfl

theorem snapFoldErr_absorb (a : Args) (e : StepEnv)
    (l : List (DatasetPath × snapProgress)) :
    l.foldl (fun acc kv => (processFS a (e.oracleOf kv.1) acc kv.2).hadErr) true = true := by
  induction l with
  | nil => rfl
  | cons kv t ih =>
    rw [List.foldl_cons, processFS_hadErr_true]
    exact ih

theorem snapFoldErr_mem (a : Args) (e : StepEnv) (fs : DatasetPath)
    (pr : snapProgress)
    (hpre : a.hooks.pre ≠ []) (hfail : (e.oracleOf fs).preRes ≠ none)
    (hkeep : a.hooks.keep = false) :
    ∀ (l : List (DatasetPath × snapProgress)) (b : Bool), (fs, pr) ∈ l →
      l.foldl (fun acc kv => (processFS a (e.oracleOf kv.1) acc kv.2).hadErr) b = true := by
  intro l
  induction l with
  | nil => intro b h; cases h
  | cons kv t ih =>
    intro b hmem
    rw [List.foldl_cons]
    rcases List.mem_cons.mp hmem with heq | hmem2
    · rw [← heq]
      rw [processFS_skip a (e.oracleOf fs) b pr hpre hfail hkeep]
      exact snapFoldErr_absorb a e t
    · rcases hb : (processFS a (e.oracleOf kv.1) b kv.2).hadErr
      · exact ih false hmem2
      · exact ih true hmem2

/-- C3 amended: with the pre hook configured and failing and keep-on-error
false, the snapshot call and the post hook are skipped and had-err is set,
so a round whose plan contains this filesystem ends in ErrorWait — but the
per-filesystem progress record is marked SnapDone with a nil error, not
Error. -/
theorem c3_prehook_failure_policy (a : Args) (o : SnapOracle) (b : Bool)
    (pr : snapProgress) (e : StepEnv) (s : SnapperCore) (fs : DatasetPath)
    (hpre : a.hooks.pre ≠ []) (hfail : o.preRes ≠ none) (hkeep : a.hooks.keep = false)
    (hmem : (fs, pr) ∈ s.plan) (hor : e.oracleOf fs = o) :
    (processFS a o b pr).snapCalled = false ∧
    (processFS a o b pr).postCalled = false ∧
    (processFS a o b pr).hadErr = true ∧
    (processFS a o b pr).progress.state = SnapState.SnapDone ∧
    (processFS a o b pr).progress.err = none ∧
    (snapshotStep a e s).state = State.ErrorWait := by
  rw [processFS_skip a o b pr hpre hfail hkeep]
  refine ⟨rfl, rfl, rfl, rfl, rfl, ?_⟩
  have hfold := snapFoldErr_mem a e fs pr hpre (hor ▸ hfail) hkeep s.plan false hmem
  simp only [snapshotStep, hfold]
  rfl

theorem c3_prehook_failure_policy_witness :
    ((['p'] : GoStr) ≠ [] ∧ (some ['e'] : Option GoStr) ≠ none ∧
      ((⟨[], [], 60, false⟩ : HookSettings)).keep = false) ∧
    ((processFS ⟨['z'], 3600, ⟨['p'], [], 60, false⟩, ['/', 'd']⟩
        ⟨⟨2024, 1, 2, 3, 4, 5, 0⟩, 10, 11, some ['e'], none, none⟩ false
        ⟨SnapState.SnapPending, [], 0, 0, none⟩).snapCalled = false ∧
      (processFS ⟨['z'], 3600, ⟨['p'], [], 60, false⟩, ['/', 'd']⟩
        ⟨⟨2024, 1, 2, 3, 4, 5, 0⟩, 10, 11, some ['e'], none, none⟩ false
        ⟨SnapState.SnapPending, [], 0, 0, none⟩).postCalled = false ∧
      (processFS ⟨['z'], 3600, ⟨['p'], [], 60, false⟩, ['/', 'd']⟩
        ⟨⟨2024, 1, 2, 3, 4, 5, 0⟩, 10, 11, some ['e'], none, none⟩ false
        ⟨SnapState.SnapPending, [], 0, 0, none⟩).hadErr = true ∧
      (processFS ⟨['z'], 3600, ⟨['p'], [], 60, false⟩, ['/', 'd']⟩
        ⟨⟨2024, 1, 2, 3, 4, 5, 0⟩, 10, 11, some ['e'], none, none⟩ false
        ⟨SnapState.SnapPending, [], 0, 0, none⟩).progress.state = SnapState.SnapDone ∧
      (processFS ⟨['z'], 3600, ⟨['p'], [], 60, false⟩, ['/', 'd']⟩
        ⟨⟨2024, 1, 2, 3, 4, 5, 0⟩, 10, 11, some ['e'], none, none⟩ false
        ⟨SnapState.SnapPending, [], 0, 0, none⟩).progress.err = none ∧
      (snapshotStep ⟨['z'], 3600, ⟨['p'], [], 60, false⟩, ['/', 'd']⟩
        ⟨0, .ok [[['t']]], fun _ => .ok [], false,
          fun _ => ⟨⟨2024, 1, 2, 3, 4, 5, 0⟩, 10, 11, some ['e'], none, none⟩⟩
        ⟨State.Snapshotting, 0, [([['t']], ⟨SnapState.SnapPending, [], 0, 0, none⟩)],
          0, none⟩).state = State.ErrorWait) :=
  ⟨⟨(by decide), (by decide), (by decide)⟩,
    c3_prehook_failure_policy
      ⟨['z'], 3600, ⟨['p'], [], 60, false⟩, ['/', 'd']⟩
      ⟨⟨2024, 1, 2, 3, 4, 5, 0⟩, 10, 11, some ['e'], none, none⟩ false
      ⟨SnapState.SnapPending, [], 0, 0, none⟩
      ⟨0, .ok [[['t']]], fun _ => .ok [], false,
        fun _ => ⟨⟨2024, 1, 2, 3, 4, 5, 0⟩, 10, 11, some ['e'], none, none⟩⟩
      ⟨State.Snapshotting, 0, [([['t']], ⟨SnapState.SnapPending, [], 0, 0, none⟩)], 0, none⟩
      [['t']]
      (by decide) (by decide) (by decide) (by simp) rfl⟩

/-- C3 counterexample: with the pre hook configured and failing and
keep-on-error false, the per-filesystem progress record is not marked
Error — the shared tail update runs with a nil snapshot error and marks it
SnapDone. -/
theorem c3_skip_marks_done_counterexample :
    (processFS ⟨['z'], 3600, ⟨['p'], [], 60, false⟩, ['/', 'd']⟩
        ⟨⟨2024, 1, 2, 3, 4, 5, 0⟩, 10, 11, some ['e'], none, none⟩ false
        ⟨SnapState.SnapPending, [], 0, 0, none⟩).progress.state ≠ SnapState.SnapError := by
  decide

/-- C4: with the pre hook configured and failing, ZFSSnapshot is called
for that filesystem exactly when keep-on-error is set. -/
theorem c4_keep_on_error_semantics (a : Args) (o : SnapOracle) (b : Bool)
    (pr : snapProgress) (hpre : a.hooks.pre ≠ []) (hfail : o.preRes ≠ none) :
    (processFS a o b pr).snapCalled = a.hooks.keep := by
  obtain ⟨m, hm⟩ : ∃ m, o.preRes = some m := Option.ne_none_iff_exists'.mp hfail
  rcases hk : a.hooks.keep
  · simp [processFS, hpre, hm, hk]
  · simp [processFS, hpre, hm, hk]

theorem c4_keep_on_error_semantics_witness :
    ((['p'] : GoStr) ≠ [] ∧ (some ['e'] : Option GoStr) ≠ none) ∧
    (processFS ⟨['z'], 3600, ⟨['p'], [], 60, true⟩, ['/', 'd']⟩
        ⟨⟨2024, 1, 2, 3, 4, 5, 0⟩, 10, 11, some ['e'], none, none⟩ false
        ⟨SnapState.SnapPending, [], 0, 0, none⟩).snapCalled =
      (⟨['p'], [], 60, true⟩ : HookSettings).keep :=
  ⟨⟨(by decide), (by decide)⟩,
    c4_keep_on_error_semantics
      ⟨['z'], 3600, ⟨['p'], [], 60, true⟩, ['/', 'd']⟩
      ⟨⟨2024, 1, 2, 3, 4, 5, 0⟩, 10, 11, some ['e'], none, none⟩ false
      ⟨SnapState.SnapPending, [], 0, 0, none⟩ (by decide) (by decide)⟩

/-- C5: a filesystem whose prefixed snapshot history is non-empty and
whose latest snapshot — the last element after the ascending stable sort
by create-txg — was created at time t with t ≤ now contributes the
proposal max(t + interval, now). -/
theorem c5_syncpoint_proposal (ds : DatasetPath) (fsvs : List FilesystemVersion)
    (now interval : Int) (latest : FilesystemVersion)
    (hne : fsvs ≠ [])
    (hlast : (sortByCreateTXG fsvs).getLast? = some latest)
    (hle : latest.creation ≤ now) :
    proposeFor now interval (ds, .ok fsvs) =
      some (max (latest.creation + interval) now) := by
  simp only [proposeFor]
  rw [if_neg (by simpa [Nat.le_zero, List.length_eq_zero] using hne)]
  simp only [hlast]
  rw [if_neg (by omega)]
  by_cases hsi : now - latest.creation < interval
  · rw [if_pos hsi, max_eq_left (by omega)]
  · rw [if_neg hsi, max_eq_right (by omega)]

theorem c5_syncpoint_proposal_witness :
    (([⟨VersionType.snapshot, ['z', 'a'], 1, 5, 100⟩] : List FilesystemVersion) ≠ [] ∧
      (sortByCreateTXG [⟨VersionType.snapshot, ['z', 'a'], 1, 5, 100⟩]).getLast? =
        some ⟨VersionType.snapshot, ['z', 'a'], 1, 5, 100⟩ ∧
      (100 : Int) ≤ 150) ∧
    proposeFor 150 100 ([['t']], .ok [⟨VersionType.snapshot, ['z', 'a'], 1, 5, 100⟩]) =
      some (max (100 + 100) 150) :=
  ⟨⟨(by decide), (by decide), (by decide)⟩,
    c5_syncpoint_proposal [['t']] [⟨VersionType.snapshot, ['z', 'a'], 1, 5, 100⟩]
      150 100 ⟨VersionType.snapshot, ['z', 'a'], 1, 5, 100⟩
      (by decide) (by decide) (by decide)⟩

/-- C6: every transition produced by a state function is one of the
section-4.5 table rows; the Snapper built by PeriodicFromConfig starts in
SyncUp; Stopped is terminal (it only self-loops) and is entered from
another state only when the context is cancelled. -/
theorem c6_transition_table :
    (∀ (a : Args) (e : StepEnv) (s : SnapperCore),
      allowedTrans s.state (snapperStep a e s).state = true) ∧
    (∀ (d : GoStr) (c : PeriodicConfig) (snp : Snapper),
      periodicFromConfig d c = .ok snp → snp.core.state = State.SyncUp) ∧
    (∀ (a : Args) (e : StepEnv) (s : SnapperCore),
      (snapperStep a e s).state = State.Stopped →
        s.state = State.Stopped ∨ e.ctxDone = true) := by
  refine ⟨?_, ?_, ?_⟩
  · intro a e s
    obtain ⟨st, li, pl, su, er⟩ := s
    cases st
    case SyncUp =>
      simp only [snapperStep, syncUpStep]
      cases e.listRes with
      | error msg => simp [onErr, allowedTrans]
      | ok fss =>
        cases hc : e.ctxDone <;> simp [hc, onMainCtxDone, allowedTrans]
    case SyncUpErrWait =>
      simp only [snapperStep, waitStep]
      cases hc : e.ctxDone <;> simp [hc, onMainCtxDone, allowedTrans]
    case Planning =>
      simp only [snapperStep, planStep]
      cases e.listRes with
      | error msg => simp [onErr, allowedTrans]
      | ok fss => simp [allowedTrans]
    case Snapshotting =>
      simp only [snapperStep, snapshotStep]
      split <;> simp [allowedTrans]
    case Waiting =>
      simp only [snapperStep, waitStep]
      cases hc : e.ctxDone <;> simp [hc, onMainCtxDone, allowedTrans]
    case ErrorWait =>
      simp only [snapperStep, waitStep]
      cases hc : e.ctxDone <;> simp [hc, onMainCtxDone, allowedTrans]
    case Stopped =>
      simp [snapperStep, allowedTrans]
  · intro d c snp h
    simp only [periodicFromConfig] at h
    split at h
    · exact Except.noConfusion h
    · split at h
      · exact Except.noConfusion h
      · injection h with h2
        subst h2
        rfl
  · intro a e s
    obtain ⟨st, li, pl, su, er⟩ := s
    cases st
    case SyncUp =>
      simp only [snapperStep, syncUpStep]
      cases e.listRes with
      | error msg => intro h; simp [onErr] at h
      | ok fss =>
        cases hc : e.ctxDone
        · intro h; simp [hc, onMainCtxDone] at h
        · intro h; exact Or.inr rfl
    case SyncUpErrWait =>
      simp only [snapperStep, waitStep]
      cases hc : e.ctxDone
      · intro h; simp [hc, onMainCtxDone] at h
      · intro h; exact Or.inr rfl
    case Planning =>
      simp only [snapperStep, planStep]
      cases e.listRes with
      | error msg => intro h; simp [onErr] at h
      | ok fss => intro h; simp at h
    case Snapshotting =>
      simp only [snapperStep, snapshotStep]
      split
      · intro h; simp at h
      · intro h; simp at h
    case Waiting =>
      simp only [snapperStep, waitStep]
      cases hc : e.ctxDone
      · intro h; simp [hc, onMainCtxDone] at h
      · intro h; exact Or.inr rfl
    case ErrorWait =>
      simp only [snapperStep, waitStep]
      cases hc : e.ctxDone
      · intro h; simp [hc, onMainCtxDone] at h
      · intro h; exact Or.inr rfl
    case Stopped =>
      intro h
      exact Or.inl rfl

theorem c6_transition_table_witness :
    (allowedTrans (coreSnapshotting.state)
      ((snapperStep argsNoHooks envAllOk coreSnapshotting).state) = true) ∧
    (periodicFromConfig ['/', 'd'] ⟨['z'], 3600, ⟨[], [], 60, false⟩⟩ =
      .ok ⟨⟨['z'], 3600, ⟨[], [], 60, false⟩, ['/', 'd']⟩,
           ⟨State.SyncUp, 0, [], 0, none⟩⟩ ∧
      (⟨⟨['z'], 3600, ⟨[], [], 60, false⟩, ['/', 'd']⟩,
        ⟨State.SyncUp, 0, [], 0, none⟩⟩ : Snapper).core.state = State.SyncUp) ∧
    ((snapperStep argsNoHooks
        ⟨0, .ok [], fun _ => .ok [], true, fun _ => oracleAllOk⟩
        ⟨State.Waiting, 0, [], 0, none⟩).state = State.Stopped ∧
      ((⟨State.Waiting, 0, [], 0, none⟩ : SnapperCore).state = State.Stopped ∨
        (⟨0, .ok [], fun _ => .ok [], true, fun _ => oracleAllOk⟩ : StepEnv).ctxDone = true)) :=
  ⟨c6_transition_table.1 argsNoHooks envAllOk coreSnapshotting,
   ⟨rfl, c6_transition_table.2.1 ['/', 'd'] ⟨['z'], 3600, ⟨[], [], 60, false⟩⟩ _ rfl⟩,
   ⟨rfl, c6_transition_table.2.2 argsNoHooks
      ⟨0, .ok [], fun _ => .ok [], true, fun _ => oracleAllOk⟩
      ⟨State.Waiting, 0, [], 0, none⟩ rfl⟩⟩

/-- C1 evaluated at the failing input: a round over a one-filesystem plan
in which every external call succeeds still leaves the Snapper's plan
entry in SnapPending — the snapshot loop mutates only the copied map
value and never writes `snapper.plan` — while the round itself moves to
Waiting. -/
theorem c1_snapshot_leaves_plan_pending :
    (snapshotStep argsNoHooks envAllOk coreSnapshotting).plan.map
        (fun kv => kv.2.state) = [SnapState.SnapPending] ∧
    (snapshotStep argsNoHooks envAllOk coreSnapshotting).state = State.Waiting := by
  constructor
  · rfl
  · rfl

theorem filepathIsAbs_contains (p : GoStr) (h : filepathIsAbs p = true) :
    p.contains '/' = true := by
  cases p with
  | nil => simp [filepathIsAbs] at h
  | cons c cs =>
    simp only [filepathIsAbs] at h
    have hc : c = '/' := by simpa using h
    subst hc
    simp [List.contains_cons]

theorem filepathClean_rooted (cs : GoStr) :
    filepathClean ('/' :: cs) =
      '/' :: joinChar '/' ((cleanLoop true [] (splitChar '/' ('/' :: cs))).reverse) := by
  rfl

/-- C9: with an absolute command directory, an absolute hook command is
executed unchanged and a relative one is executed joined under the
command directory; in both cases the resolved program path contains a
slash, so exec performs no PATH search. -/
theorem c9_hook_command_resolution (dir cmd : GoStr)
    (hdir : filepathIsAbs dir = true) :
    (filepathIsAbs cmd = true → resolveHookCommand dir cmd = cmd) ∧
    (filepathIsAbs cmd = false → resolveHookCommand dir cmd = filepathJoin dir cmd) ∧
    execUsesLookPath (resolveHookCommand dir cmd) = false := by
  refine ⟨?_, ?_, ?_⟩
  · intro h; simp [resolveHookCommand, h]
  · intro h; simp [resolveHookCommand, h]
  · rcases hab : filepathIsAbs cmd
    · have hr : resolveHookCommand dir cmd = filepathJoin dir cmd := by
        simp [resolveHookCommand, hab]
      rw [hr]
      cases dir with
      | nil => simp [filepathIsAbs] at hdir
      | cons c cs =>
        have hc : c = '/' := by simpa [filepathIsAbs] using hdir
        subst hc
        have hne : ('/' :: cs : GoStr) ≠ [] := by simp
        have hj : filepathJoin ('/' :: cs) cmd =
            filepathClean (('/' :: cs) ++ '/' :: cmd) := by
          simp [filepathJoin]
        rw [hj]
        rw [show (('/' :: cs) ++ '/' :: cmd) = '/' :: (cs ++ '/' :: cmd) from rfl]
        rw [filepathClean_rooted]
        simp [execUsesLookPath, List.contains_cons]
    · have hr : resolveHookCommand dir cmd = cmd := by
        simp [resolveHookCommand, hab]
      rw [hr]
      simp only [execUsesLookPath]
      rw [filepathIsAbs_contains cmd hab]
      rfl

theorem c9_hook_command_resolution_witness :
    filepathIsAbs ['/', 'd'] = true ∧
    (filepathIsAbs ['h'] = false →
      resolveHookCommand ['/', 'd'] ['h'] = filepathJoin ['/', 'd'] ['h']) ∧
    execUsesLookPath (resolveHookCommand ['/', 'd'] ['h']) = false :=
  ⟨(by decide), (c9_hook_command_resolution ['/', 'd'] ['h'] (by decide)).2.1,
   (c9_hook_command_resolution ['/', 'd'] ['h'] (by decide)).2.2⟩

end Zrepl
